import Mathlib

/-!
Verification of the command-line parsing and dispatch engine of a small
interactive shell (`src/app/main.ts`).  The TypeScript source is shallowly
embedded: JS strings become `List Char`, the character-by-character tokenizer
loop becomes a structurally recursive function over the character list, the
redirection-token extractor becomes a recursive function over the token list,
and the dispatcher's observable side effects (terminal writes, file writes,
directory changes, process spawns) become an explicit event trace.
-/

namespace BuildShell

/-- JS strings are modelled as lists of characters. -/
abbrev Str := List Char

/-- Convert a Lean string literal into the `List Char` model. -/
def str (s : String) : Str := s.toList

/-- `BUILTIN_COMMANDS` from `src/app/main.ts` line 12. -/
def BUILTIN_COMMANDS : List Str := [str "cd", str "echo", str "exit", str "pwd", str "type"]

/-! ## Tokenizer (`parseInput`, src/app/main.ts lines 145-214, character loop) -/

/-- Tokenizer state: the accumulating current-token buffer `cur`, the already
emitted tokens `args`, and the two quoting flags, mirroring `currentArg`,
`args`, `inSingleQuote`, `inDoubleQuote` of `parseInput`. -/
structure TokSt where
  cur : Str
  args : List Str
  inSingle : Bool
  inDouble : Bool
  deriving DecidableEq, Repr

/-- `specialCharactersForSlash` from src/app/main.ts line 151: the characters a
backslash escapes inside a double-quoted span. -/
def specialCharactersForSlash : Str := ['\\', '$', '"', '\n']

/-- `currentArg += c`. -/
def appendCur (s : TokSt) (c : Char) : TokSt := {s with cur := s.cur ++ [c]}

/-- The unquoted-space branch: flush the current buffer into the token list,
but only when it is non-empty (src/app/main.ts lines 196-202). -/
def flushCur (s : TokSt) : TokSt :=
  {s with cur := [], args := s.args ++ (if s.cur.isEmpty then [] else [s.cur])}

/-- One step of the tokenizer for the final character of the line (the case
`i + 1 = line.length`, where `line[i+1]` is out of range): a trailing
backslash outside quotes appends nothing because the bound check
`i + 1 < line.length` fails; inside double quotes `nextChar` is `undefined`,
which is not in `specialCharactersForSlash`, so the backslash itself is kept. -/
def tokStep1 (c : Char) (s : TokSt) : TokSt :=
  if c = '\\' then
    if s.inSingle then appendCur s c
    else if s.inDouble then appendCur s c
    else s
  else if c = '"' && !s.inSingle then {s with inDouble := !s.inDouble}
  else if c = '\'' && !s.inDouble then {s with inSingle := !s.inSingle}
  else if c = ' ' && !s.inSingle && !s.inDouble then flushCur s
  else appendCur s c

/-- The character loop of `parseInput` (src/app/main.ts lines 153-206).  The
two-characters-at-a-time pattern exposes the lookahead `line[i+1]` used by the
backslash branches; consuming the escaped character corresponds to the `i++`
in the source. -/
def tokLoop : List Char → TokSt → TokSt
  | [], s => s
  | [c], s => tokStep1 c s
  | c :: c2 :: rest, s =>
    if c = '\\' then
      if s.inSingle then tokLoop (c2 :: rest) (appendCur s c)
      else if s.inDouble then
        if c2 ∈ specialCharactersForSlash then tokLoop rest (appendCur s c2)
        else tokLoop (c2 :: rest) (appendCur s c)
      else tokLoop rest (appendCur s c2)
    else if c = '"' && !s.inSingle then tokLoop (c2 :: rest) {s with inDouble := !s.inDouble}
    else if c = '\'' && !s.inDouble then tokLoop (c2 :: rest) {s with inSingle := !s.inSingle}
    else if c = ' ' && !s.inSingle && !s.inDouble then tokLoop (c2 :: rest) (flushCur s)
    else tokLoop (c2 :: rest) (appendCur s c)

/-- Initial tokenizer state: empty buffer, no tokens, outside all quotes. -/
def initTok : TokSt := ⟨[], [], false, false⟩

/-- The tokenizing phase of `parseInput`: run the character loop and flush a
non-empty final buffer (src/app/main.ts lines 208-210). -/
def tokenize (line : Str) : List Str :=
  let s := tokLoop line initTok
  s.args ++ (if s.cur.isEmpty then [] else [s.cur])

/-! ## Redirection extractor (`parseInput`, src/app/main.ts lines 219-298) -/

/-- State of the redirection scan, mirroring the mutable locals
`redirectTarget`, `redirectErrorTarget`, `appendStdout`, `appendStderr`,
`filteredArgs` of `parseInput` (src/app/main.ts lines 224-228). -/
structure ExtractSt where
  redirectTarget : Option Str
  redirectErrorTarget : Option Str
  appendStdout : Bool
  appendStderr : Bool
  filteredArgs : List Str
  deriving DecidableEq, Repr

/-- Initial extractor state: no redirection, truncate modes, no kept args. -/
def initExtract : ExtractSt := ⟨none, none, false, false, []⟩

/-- The six exact standalone operator tokens recognized by the first branch of
the scan (src/app/main.ts lines 234-241). -/
def standaloneOps : List Str := [str ">", str ">>", str "1>", str "1>>", str "2>", str "2>>"]

/-- JS `t.includes(pat)`: `pat` occurs as a contiguous substring of `t`. -/
def hasInfix (pat : Str) : Str → Bool
  | [] => pat.isPrefixOf []
  | c :: rest => pat.isPrefixOf (c :: rest) || hasInfix pat rest

/-- `token.includes(">>")` (src/app/main.ts line 244): selects append mode for
a standalone operator. -/
def hasDoubleGt (t : Str) : Bool := hasInfix (str ">>") t

/-- The redirection scan loop of `parseInput` (src/app/main.ts lines 230-298).
Branch order mirrors the source exactly: exact standalone operators first
(consuming the following token as target when one exists, otherwise falling
through to the plain-argument push), then fused append prefixes
`1>>`/`2>>`/`>>`, then fused truncate prefixes `1>`/`2>`/`>`, then the
pass-through push. -/
def extractLoop : List Str → ExtractSt → ExtractSt
  | [], s => s
  | token :: rest, s =>
    if token ∈ standaloneOps then
      match rest with
      | target :: rest2 =>
        let isAppend := hasDoubleGt token
        if (str "2").isPrefixOf token then
          extractLoop rest2 {s with redirectErrorTarget := some target, appendStderr := isAppend}
        else
          extractLoop rest2 {s with redirectTarget := some target, appendStdout := isAppend}
      | [] => {s with filteredArgs := s.filteredArgs ++ [token]}
    else if (str "1>>").isPrefixOf token || (str "2>>").isPrefixOf token
        || (str ">>").isPrefixOf token then
      let isStdoutWithOne := (str "1>>").isPrefixOf token
      let isStderr := (str "2>>").isPrefixOf token
      let offset := if isStdoutWithOne || isStderr then 3 else 2
      let target := token.drop offset
      if 0 < target.length then
        if isStderr then
          extractLoop rest {s with redirectErrorTarget := some target, appendStderr := true}
        else
          extractLoop rest {s with redirectTarget := some target, appendStdout := true}
      else extractLoop rest {s with filteredArgs := s.filteredArgs ++ [token]}
    else if (str "1>").isPrefixOf token || (str "2>").isPrefixOf token
        || (str ">").isPrefixOf token then
      let isStdoutWithOne := (str "1>").isPrefixOf token
      let isStderr := (str "2>").isPrefixOf token
      let offset := if isStdoutWithOne || isStderr then 2 else 1
      let target := token.drop offset
      if 0 < target.length then
        if isStderr then
          extractLoop rest {s with redirectErrorTarget := some target, appendStderr := false}
        else
          extractLoop rest {s with redirectTarget := some target, appendStdout := false}
      else extractLoop rest {s with filteredArgs := s.filteredArgs ++ [token]}
    else extractLoop rest {s with filteredArgs := s.filteredArgs ++ [token]}

/-- `extract(tokens[1:])`: run the redirection scan on the tokens after the
command word, starting from the initial state. -/
def extract (rawArgs : List Str) : ExtractSt := extractLoop rawArgs initExtract

/-- `ParsedInput` (src/app/main.ts lines 122-129).  The JS fields
`redirectTarget?`/`redirectErrorTarget?` are `string | undefined`, modelled as
`Option Str`; an absent boolean (`undefined`, falsy) is modelled as `false`. -/
structure ParsedInput where
  command : Str
  args : List Str
  redirectTarget : Option Str
  redirectErrorTarget : Option Str
  appendStdout : Bool
  appendStderr : Bool
  deriving DecidableEq, Repr

/-- `parseInput` (src/app/main.ts lines 145-308): tokenize, split off the
command word, and run the redirection scan on the remaining tokens. -/
def parseInput (line : Str) : ParsedInput :=
  match tokenize line with
  | [] => ⟨[], [], none, none, false, false⟩
  | command :: rawArgs =>
    let st := extract rawArgs
    ⟨command, st.filteredArgs, st.redirectTarget, st.redirectErrorTarget,
     st.appendStdout, st.appendStderr⟩

/-! ## Dispatcher (`prompt` and the handlers, src/app/main.ts lines 310-495)

The Node collaborators (filesystem, `path`, `child_process`) are an explicit
environment; the dispatcher's observable side effects become an event trace. -/

/-- The ambient collaborators used by the handlers: the `PATH` directory list,
`process.env.HOME`, `process.cwd()`, the `accessSync` existence and
execute-permission checks, `path.join` and `path.resolve`, and the captured
stdout/stderr bytes a spawned child produces. -/
structure Env where
  directories : List Str
  home : Str
  cwd : Str
  fileExists : Str → Bool
  fileExecutable : Str → Bool
  join : Str → Str → Str
  resolve : Str → Str → Str
  spawnOut : Str → List Str → Str
  spawnErr : Str → List Str → Str

/-- Observable side effects of one dispatch: a write to the shell's own
terminal stdout (`console.log` / `process.stdout.write`), `writeFileSync`,
`appendFileSync`, `process.chdir`, `spawnSync` (with which streams are piped),
and `rl.close()`. -/
inductive Ev where
  | termOut (text : Str)
  | fileWrite (target : Str) (text : Str)
  | fileAppend (target : Str) (text : Str)
  | chdir (target : Str)
  | spawn (path : Str) (args : List Str) (pipeOut pipeErr : Bool)
  | closeLoop
  deriving DecidableEq, Repr

/-- JS truthiness of a `string | undefined` value: `undefined` and the empty
string are falsy. -/
def strTruthy : Option Str → Bool
  | none => false
  | some s => !s.isEmpty

/-- `Option.getD` shorthand for reading a target that was checked truthy. -/
def getT (o : Option Str) : Str := o.getD []

/-- `writeLine` (src/app/main.ts lines 132-143): append a newline, then either
write/append the redirect target or write to the terminal. -/
def writeLineEv (output : Str) (redirectTarget : Option Str) (append : Bool) : Ev :=
  let text := output ++ ['\n']
  if strTruthy redirectTarget then
    if append then .fileAppend (getT redirectTarget) text
    else .fileWrite (getT redirectTarget) text
  else .termOut text

/-- `handleCd` (src/app/main.ts lines 310-330).  Note that its error message
goes through `console.log`, not `writeLine`: the handler never receives the
redirection plan. -/
def handleCd (env : Env) (args : List Str) : List Ev :=
  match args with
  | [] => []
  | location :: _ =>
    if location.isEmpty then []
    else
      let targetPath :=
        if (str "~").isPrefixOf location then env.join env.home (location.drop 1)
        else env.resolve env.cwd location
      if env.fileExists targetPath then [.chdir targetPath]
      else [.termOut (str "cd: " ++ location ++ str ": No such file or directory" ++ ['\n'])]

/-- `handleEcho` (src/app/main.ts lines 332-335): join the arguments with a
single space and emit through `writeLine`. -/
def handleEcho (args : List Str) (redirectTarget : Option Str) (append : Bool) : List Ev :=
  [writeLineEv (List.intercalate [' '] args) redirectTarget append]

/-- The `PATH` scan shared by `handleType` and `handleNotFound`: first
directory whose `path.join(dir, name)` entry is executable wins. -/
def findExec (env : Env) (name : Str) : List Str → Option Str
  | [] => none
  | d :: ds =>
    let fullPath := env.join d name
    if env.fileExecutable fullPath then some fullPath else findExec env name ds

/-- `handleType` (src/app/main.ts lines 337-373): builtin check first, then
the `PATH` scan, every message through `writeLine`. -/
def handleType (env : Env) (args : List Str) (redirectTarget : Option Str)
    (append : Bool) : List Ev :=
  match args with
  | [] => [writeLineEv (str "type: missing operand") redirectTarget append]
  | commandName :: _ =>
    if commandName.isEmpty then
      [writeLineEv (str "type: missing operand") redirectTarget append]
    else if commandName ∈ BUILTIN_COMMANDS then
      [writeLineEv (commandName ++ str " is a shell builtin") redirectTarget append]
    else
      match findExec env commandName env.directories with
      | some fullPath => [writeLineEv (commandName ++ str " is " ++ fullPath) redirectTarget append]
      | none => [writeLineEv (commandName ++ str ": not found") redirectTarget append]

/-- `handleNotFound` (src/app/main.ts lines 375-440): scan `PATH`; on a hit,
spawn with the stdio plan selected by which redirect targets are truthy and
write the captured bytes honoring each stream's append flag; if the scan is
exhausted, `console.log` the command-not-found line to the terminal. -/
def handleNotFound (env : Env) (command : Str) (args : List Str)
    (redirectTarget redirectErrorTarget : Option Str)
    (appendStdout appendStderr : Bool) : List Ev :=
  match findExec env command env.directories with
  | none => [.termOut (command ++ str ": command not found" ++ ['\n'])]
  | some fullPath =>
    let outData := env.spawnOut fullPath args
    let errData := env.spawnErr fullPath args
    if strTruthy redirectTarget && strTruthy redirectErrorTarget then
      [.spawn fullPath args true true,
       (if appendStdout then .fileAppend (getT redirectTarget) outData
        else .fileWrite (getT redirectTarget) outData),
       (if appendStderr then .fileAppend (getT redirectErrorTarget) errData
        else .fileWrite (getT redirectErrorTarget) errData)]
    else if strTruthy redirectTarget then
      [.spawn fullPath args true false,
       (if appendStdout then .fileAppend (getT redirectTarget) outData
        else .fileWrite (getT redirectTarget) outData)]
    else if strTruthy redirectErrorTarget then
      [.spawn fullPath args false true,
       (if appendStderr then .fileAppend (getT redirectErrorTarget) errData
        else .fileWrite (getT redirectErrorTarget) errData)]
    else [.spawn fullPath args false false]

/-- The pre-execution truncation step of `prompt` (src/app/main.ts lines
452-459): each truthy target in truncate mode is created/emptied by
`writeFileSync(target, "")` before the command switch runs.  It never reads
`p.command`. -/
def preEvents (p : ParsedInput) : List Ev :=
  (if strTruthy p.redirectTarget && !p.appendStdout then
    [Ev.fileWrite (getT p.redirectTarget) []] else [])
  ++ (if strTruthy p.redirectErrorTarget && !p.appendStderr then
    [Ev.fileWrite (getT p.redirectErrorTarget) []] else [])

/-- The command switch of `prompt` (src/app/main.ts lines 461-490), checked in
source order: `cd`, `exit`, `echo`, `pwd`, `type`, then external dispatch. -/
def bodyEvents (env : Env) (p : ParsedInput) : List Ev :=
  if p.command = str "cd" then handleCd env p.args
  else if p.command = str "exit" then [.closeLoop]
  else if p.command = str "echo" then handleEcho p.args p.redirectTarget p.appendStdout
  else if p.command = str "pwd" then [writeLineEv env.cwd p.redirectTarget p.appendStdout]
  else if p.command = str "type" then handleType env p.args p.redirectTarget p.appendStdout
  else handleNotFound env p.command p.args p.redirectTarget p.redirectErrorTarget
        p.appendStdout p.appendStderr

/-- One dispatch of a parsed line: the pre-execution truncation events followed
by the command switch events. -/
def dispatch (env : Env) (p : ParsedInput) : List Ev :=
  preEvents p ++ bodyEvents env p

/-- Interpretation of one event on the file system, modelled as a partial map
from paths to contents.  `appendFileSync` creates a missing file. -/
def applyEv (files : Str → Option Str) : Ev → (Str → Option Str)
  | .fileWrite t text => fun k => if k = t then some text else files k
  | .fileAppend t text => fun k => if k = t then some ((files t).getD [] ++ text) else files k
  | _ => files

/-- Interpretation of an event trace on the file system, left to right. -/
def applyEvs (evs : List Ev) (files : Str → Option Str) : Str → Option Str :=
  evs.foldl applyEv files

/-! ## Completion engine (`completer` and `tabPressCount`,
src/app/main.ts lines 22-29 and 46-120) -/

/-- The keypress listener (src/app/main.ts lines 23-29): a tab press
increments `tabPressCount`, any other key resets it to zero. -/
def tabCounterStep (isTab : Bool) (n : Nat) : Nat :=
  if isTab then n + 1 else 0

/-- `longestCommonPrefix`'s inner shrink loop (src/app/main.ts lines 38-41):
while the candidate is not a literal prefix of `s` (`indexOf(prefix) !== 0`),
drop its last character; the empty string is a prefix of everything, so the
fuel `p.length + 1` supplied by `shrinkToPre` always suffices. -/
def shrinkFuel (s : Str) : Nat → Str → Str
  | 0, _ => []
  | fuel + 1, p => if p.isPrefixOf s then p else shrinkFuel s fuel p.dropLast

/-- Shrink `p` from the end until it is a prefix of `s`. -/
def shrinkToPre (s p : Str) : Str := shrinkFuel s (p.length + 1) p

/-- `longestCommonPrefix` (src/app/main.ts lines 32-44): start from the first
string and shrink against each following one; empty input gives the empty
string, a single string is returned unchanged. -/
def longestCommonPrefix : List Str → Str
  | [] => []
  | [s] => s
  | s :: rest => rest.foldl (fun pre t => shrinkToPre t pre) s

/-- Lexicographic comparison on the character lists, the order JS
`Array.prototype.sort()` applies to strings. -/
def strLe : Str → Str → Bool
  | [], _ => true
  | _ :: _, [] => false
  | a :: as, b :: bs => if a < b then true else if b < a then false else strLe as bs

/-- Insertion step of the sort applied to the candidate array. -/
def insertStr (x : Str) : List Str → List Str
  | [] => [x]
  | y :: ys => if strLe x y then x :: y :: ys else y :: insertStr x ys

/-- `Array.from(candidates).sort()`: the lexicographically sorted arrangement
of the (already deduplicated) candidate list. -/
def sortStrs (l : List Str) : List Str := l.foldr insertStr []

/-- The completion engine's collaborators: the `PATH` directory list and
`readdirSync`, where `none` models a directory whose listing throws (skipped
silently by the source's try/catch). -/
structure CompEnv where
  directories : List Str
  dirFiles : Str → Option (List Str)

/-- Events the completer emits on `process.stdout` / the readline interface:
a raw write (the bell `"\x07"` or the candidate listing) and `rl.prompt(true)`. -/
inductive CEv where
  | write (text : Str)
  | promptRedraw
  deriving DecidableEq, Repr

/-- The bell character `"\x07"`. -/
def bellChar : Char := Char.ofNat 7

/-- JS `line.trim()`: strip leading and trailing whitespace. -/
def jsTrim (l : Str) : Str :=
  ((l.dropWhile Char.isWhitespace).reverse.dropWhile Char.isWhitespace).reverse

/-- Extraction of the partial command word (src/app/main.ts lines 51-56):
trim the line and cut at the first space, taking the whole trimmed line when
no space occurs. -/
def commandPartOf (line : Str) : Str :=
  let trimmedLine := jsTrim line
  match trimmedLine.findIdx? (fun c => c = ' ') with
  | none => trimmedLine
  | some i => trimmedLine.take i

/-- The candidate gathering of the completer (src/app/main.ts lines 64-87):
builtins whose name starts with the partial word, then every readable `PATH`
directory's entries with that prefix, deduplicated in insertion order (the JS
`Set`) and then sorted. -/
def sortedCandidatesOf (env : CompEnv) (commandPart : Str) : List Str :=
  let builtinC := BUILTIN_COMMANDS.filter (fun c => commandPart.isPrefixOf c)
  let withPath := env.directories.foldl (fun acc d =>
      match env.dirFiles d with
      | none => acc
      | some files => acc ++ files.filter (fun f => commandPart.isPrefixOf f)) builtinC
  sortStrs withPath.eraseDups

/-- `completer` (src/app/main.ts lines 49-119): returns the readline
completion pair (proposed completions, the partial word being completed)
together with the stdout/prompt events the callback performs. -/
def completerFn (env : CompEnv) (tabPressCount : Nat) (line : Str) :
    (List Str × Str) × List CEv :=
  let commandPart := commandPartOf line
  if commandPart.isEmpty then (([], []), [])
  else
    match sortedCandidatesOf env commandPart with
    | [] => (([], commandPart), [.write [bellChar]])
    | [c] => (([c ++ [' ']], commandPart), [])
    | c1 :: c2 :: rest =>
      let sortedCandidates := c1 :: c2 :: rest
      let lcp := longestCommonPrefix sortedCandidates
      if lcp.length > commandPart.length then (([lcp], commandPart), [])
      else if 2 ≤ tabPressCount then
        (([], commandPart),
         [.write (['\n'] ++ List.intercalate [' ', ' '] sortedCandidates ++ ['\n']),
          .promptRedraw])
      else (([], commandPart), [.write [bellChar]])

/-! ## Auxiliary definitions for the statements -/

/-- The sequence of tokenizer states visited while the character loop runs,
mirroring `tokLoop` branch by branch: the current state is recorded, then the
trace of the continuation follows. -/
def tokStates : List Char → TokSt → List TokSt
  | [], s => [s]
  | [c], s => [s, tokStep1 c s]
  | c :: c2 :: rest, s =>
    s :: (if c = '\\' then
      if s.inSingle then tokStates (c2 :: rest) (appendCur s c)
      else if s.inDouble then
        if c2 ∈ specialCharactersForSlash then tokStates rest (appendCur s c2)
        else tokStates (c2 :: rest) (appendCur s c)
      else tokStates rest (appendCur s c2)
    else if c = '"' && !s.inSingle then tokStates (c2 :: rest) {s with inDouble := !s.inDouble}
    else if c = '\'' && !s.inDouble then tokStates (c2 :: rest) {s with inSingle := !s.inSingle}
    else if c = ' ' && !s.inSingle && !s.inDouble then tokStates (c2 :: rest) (flushCur s)
    else tokStates (c2 :: rest) (appendCur s c))

/-- A concrete environment in which no file exists and no executable is found:
`PATH` is empty, every `accessSync` check fails, `path.resolve` returns the
location unchanged. -/
def envNone : Env :=
  ⟨[], [], [], fun _ => false, fun _ => false, fun a b => a ++ b, fun _ l => l,
   fun _ _ => [], fun _ _ => []⟩

/-- An empty file system: no path has contents. -/
def noFiles : Str → Option Str := fun _ => none

/-- A file system holding exactly one file `t` with contents `c`. -/
def filesWith (t c : Str) : Str → Option Str := fun k => if k = t then some c else none

/-- A concrete completion environment with an empty `PATH`. -/
def compEnvEmpty : CompEnv := ⟨[], fun _ => none⟩

/-! # Theorems -/

/-! ## Tokenizer claims -/

/-- C3: outside single and double quotes, a backslash followed by at least one
more character escapes exactly that single next character, which is appended
literally to the current token regardless of its normal meaning (first
conjunct, a step law of the character loop at any position with both quote
flags off); in particular `tokenize` applied to a backslash followed by any
single character `c` — including space and both quote characters — yields the
one token consisting of `c` alone (second conjunct). -/
theorem backslash_escapes_next_char :
    (∀ (s : TokSt) (c : Char) (rest : List Char),
      s.inSingle = false → s.inDouble = false →
      tokLoop ('\\' :: c :: rest) s = tokLoop rest (appendCur s c))
    ∧ (∀ c : Char, tokenize ['\\', c] = [[c]]) := by
  constructor
  · intro s c rest h1 h2
    simp [tokLoop, h1, h2]
  · intro c
    simp [tokenize, tokLoop, appendCur, initTok]

/-- Witness for C3 at the concrete escaped characters `' '` and `'\''`. -/
theorem backslash_escapes_next_char_witness :
    tokLoop ['\\', ' '] initTok = tokLoop [] (appendCur initTok ' ')
    ∧ tokenize ['\\', '\''] = [['\'']] :=
  ⟨backslash_escapes_next_char.1 initTok ' ' [] rfl rfl,
   backslash_escapes_next_char.2 '\''⟩

/-- C6 counterexample: a line consisting only of the whitespace character tab
does NOT tokenize to the empty sequence — only the space character is treated
as a separator by the loop, so the claim as stated (every whitespace-only line
yields the empty sequence) is false. -/
theorem tokenize_tab_line_not_empty :
    tokenize ['\t'] = [['\t']] ∧ Char.isWhitespace '\t' = true := by decide

/-- Helper for C6: running the character loop over a line of spaces from a
state with an empty buffer and both quote flags off leaves the state
unchanged. -/
theorem tokLoop_spaces (cs : List Char) : ∀ args : List Str,
    (∀ c ∈ cs, c = ' ') →
    tokLoop cs ⟨[], args, false, false⟩ = ⟨[], args, false, false⟩ := by
  induction cs with
  | nil => intro args _; rfl
  | cons c rest ih =>
    intro args h
    have hc : c = ' ' := h c (by simp)
    subst hc
    have hrest : ∀ c ∈ rest, c = ' ' := fun c hc => h c (by simp [hc])
    cases rest with
    | nil => simp [tokLoop, tokStep1, flushCur]
    | cons c2 rest2 =>
      have hstep : tokLoop (' ' :: c2 :: rest2) (⟨[], args, false, false⟩ : TokSt)
          = tokLoop (c2 :: rest2) (flushCur ⟨[], args, false, false⟩) := by
        simp [tokLoop]
      have hf : flushCur ⟨[], args, false, false⟩ = ⟨[], args, false, false⟩ := by
        simp [flushCur]
      rw [hstep, hf]
      exact ih args hrest

/-- C6 amended: `tokenize` is total by construction, and every line that is
empty or consists only of *space* characters (the only separator the loop
recognizes; other whitespace such as tab is an ordinary character) yields the
empty token sequence. -/
theorem tokenize_space_only_eq_nil (line : Str) (h : ∀ c ∈ line, c = ' ') :
    tokenize line = [] := by
  have : tokLoop line initTok = ⟨[], [], false, false⟩ := tokLoop_spaces line [] h
  simp [tokenize, this]

/-- Witness for C6 (amended) on the two-space line. -/
theorem tokenize_space_only_eq_nil_witness : tokenize [' ', ' '] = [] :=
  tokenize_space_only_eq_nil [' ', ' '] (by decide)

/-- C9: quote removal happens before redirection extraction, so an operator
that was quoted on the command line is still recognized as redirection syntax:
the line `echo '>' out` tokenizes to `["echo", ">", "out"]`, and `parseInput`
then consumes `>` and `out` as a stdout redirection, leaving no arguments. -/
theorem quoted_operator_still_extracted :
    tokenize ['e', 'c', 'h', 'o', ' ', '\'', '>', '\'', ' ', 'o', 'u', 't']
      = [str "echo", str ">", str "out"]
    ∧ parseInput ['e', 'c', 'h', 'o', ' ', '\'', '>', '\'', ' ', 'o', 'u', 't']
      = ⟨str "echo", [], some (str "out"), none, false, false⟩ := by decide

/-- Helper for C8: the single-character tokenizer step preserves the property
that the two quote flags are not both set. -/
theorem tokStep1_inv (c : Char) (s : TokSt)
    (h : ¬(s.inSingle = true ∧ s.inDouble = true)) :
    ¬((tokStep1 c s).inSingle = true ∧ (tokStep1 c s).inDouble = true) := by
  unfold tokStep1
  split_ifs <;> simp_all [appendCur, flushCur]

/-- Helper for C8: every state in the trace of the character loop satisfies
the flag exclusion, provided the starting state does.  A double-quote toggle
only fires when `inSingle` is false and leaves it false, and symmetrically for
a single-quote toggle, so neither can produce a state with both flags set. -/
theorem tokStates_inv (cs : List Char) (s : TokSt) :
    ¬(s.inSingle = true ∧ s.inDouble = true) →
    ∀ t ∈ tokStates cs s, ¬(t.inSingle = true ∧ t.inDouble = true) := by
  induction cs, s using tokStates.induct with
  | case1 s =>
    intro h t ht
    simp only [tokStates, List.mem_singleton] at ht
    exact ht ▸ h
  | case2 c s =>
    intro h t ht
    simp only [tokStates, List.mem_cons, List.not_mem_nil, or_false] at ht
    rcases ht with rfl | rfl
    · exact h
    · exact tokStep1_inv c s h
  | case3 c c2 rest s ih5 ih4 ih3 ih2 ih1 =>
    intro h t ht
    simp only [tokStates] at ht
    rcases List.mem_cons.mp ht with rfl | ht2
    · exact h
    · have happ : ∀ c3 : Char,
          ¬((appendCur s c3).inSingle = true ∧ (appendCur s c3).inDouble = true) := by
        intro c3; simpa [appendCur] using h
      have hfl : ¬((flushCur s).inSingle = true ∧ (flushCur s).inDouble = true) := by
        simpa [flushCur] using h
      split at ht2
      · split at ht2
        · exact ih5 (happ c) t ht2
        · split at ht2
          · split at ht2
            · exact ih4 (happ c2) t ht2
            · exact ih5 (happ c) t ht2
          · exact ih4 (happ c2) t ht2
      · split at ht2
        · rename_i hq
          refine ih3 ?_ t ht2
          have hs0 : s.inSingle = false := by
            cases hs : s.inSingle
            · rfl
            · rw [hs] at hq; simp at hq
          simp [hs0]
        · split at ht2
          · rename_i hq
            refine ih2 ?_ t ht2
            have hd0 : s.inDouble = false := by
              cases hs : s.inDouble
              · rfl
              · rw [hs] at hq; simp at hq
            simp [hd0]
          · split at ht2
            · exact ih1 hfl t ht2
            · exact ih5 (happ c) t ht2

/-- C8: for every input line, at every step of the tokenizer's
character-by-character processing starting from the initial state, the flags
`inSingle` and `inDouble` are never both true. -/
theorem quote_flags_mutually_exclusive (line : Str) :
    ∀ t ∈ tokStates line initTok, ¬(t.inSingle = true ∧ t.inDouble = true) :=
  tokStates_inv line initTok (by simp [initTok])

/-- Witness for C8 on the line `'"` (a double quote inside single quotes):
the state reached after both quote characters has only `inSingle` set. -/
theorem quote_flags_mutually_exclusive_witness :
    ¬((⟨['"'], [], true, false⟩ : TokSt).inSingle = true
      ∧ (⟨['"'], [], true, false⟩ : TokSt).inDouble = true) :=
  quote_flags_mutually_exclusive ['\'', '"'] ⟨['"'], [], true, false⟩ (by decide)

/-! ## Redirection extractor claims -/

/-- Helper for C2/C4: processing a standalone operator that has a following
token consumes both, assigning the stream selected by the operator's `2`
prefix with mode selected by `>>` containment, and leaves the other stream's
fields and the filtered arguments untouched. -/
theorem extractLoop_standalone_consume (s : ExtractSt) (op target : Str)
    (rest : List Str) (hop : op ∈ standaloneOps) :
    extractLoop (op :: target :: rest) s =
      extractLoop rest
        (if (str "2").isPrefixOf op then
          {s with redirectErrorTarget := some target, appendStderr := hasDoubleGt op}
         else
          {s with redirectTarget := some target, appendStdout := hasDoubleGt op}) := by
  simp only [standaloneOps, List.mem_cons, List.not_mem_nil, or_false] at hop
  rcases hop with rfl | rfl | rfl | rfl | rfl | rfl <;>
    simp +decide [extractLoop, hasDoubleGt]

/-- Helper for C2/C4: a standalone operator with no following token is pushed
onto the filtered arguments and changes nothing else. -/
theorem extractLoop_standalone_dangling (s : ExtractSt) (op : Str)
    (hop : op ∈ standaloneOps) :
    extractLoop [op] s = {s with filteredArgs := s.filteredArgs ++ [op]} := by
  simp only [standaloneOps, List.mem_cons, List.not_mem_nil, or_false] at hop
  rcases hop with rfl | rfl | rfl | rfl | rfl | rfl <;> simp +decide [extractLoop]

set_option maxHeartbeats 1000000 in
/-- Helper for C2: a fused `>>` token with non-empty remainder sets the stdout
entry to the remainder in append mode. -/
theorem extractLoop_fused_append_bare (s : ExtractSt) (rest : List Str)
    (a : Char) (t : Str) :
    extractLoop ((str ">>" ++ (a :: t)) :: rest) s =
      extractLoop rest {s with redirectTarget := some (a :: t), appendStdout := true} := by
  rw [extractLoop.eq_def]
  simp only []
  rw [if_neg (by simp +decide [standaloneOps, str])]
  rw [if_pos (by simp +decide [str, List.isPrefixOf])]
  simp +decide [str, List.isPrefixOf]

set_option maxHeartbeats 1000000 in
/-- Helper for C2: a fused `1>>` token with non-empty remainder sets the
stdout entry to the remainder in append mode. -/
theorem extractLoop_fused_append_one (s : ExtractSt) (rest : List Str)
    (a : Char) (t : Str) :
    extractLoop ((str "1>>" ++ (a :: t)) :: rest) s =
      extractLoop rest {s with redirectTarget := some (a :: t), appendStdout := true} := by
  rw [extractLoop.eq_def]
  simp only []
  rw [if_neg (by simp +decide [standaloneOps, str])]
  rw [if_pos (by simp +decide [str, List.isPrefixOf])]
  simp +decide [str, List.isPrefixOf]

set_option maxHeartbeats 1000000 in
/-- Helper for C2: a fused `2>>` token with non-empty remainder sets the
stderr entry to the remainder in append mode. -/
theorem extractLoop_fused_append_two (s : ExtractSt) (rest : List Str)
    (a : Char) (t : Str) :
    extractLoop ((str "2>>" ++ (a :: t)) :: rest) s =
      extractLoop rest {s with redirectErrorTarget := some (a :: t), appendStderr := true} := by
  rw [extractLoop.eq_def]
  simp only []
  rw [if_neg (by simp +decide [standaloneOps, str])]
  rw [if_pos (by simp +decide [str, List.isPrefixOf])]
  simp +decide [str, List.isPrefixOf]

set_option maxHeartbeats 1000000 in
/-- Helper for C2: a fused `>` token whose remainder does not begin with `>`
sets the stdout entry to the remainder in truncate mode. -/
theorem extractLoop_fused_trunc_bare (s : ExtractSt) (rest : List Str)
    (a : Char) (t : Str) (ha : a ≠ '>') :
    extractLoop ((str ">" ++ (a :: t)) :: rest) s =
      extractLoop rest {s with redirectTarget := some (a :: t), appendStdout := false} := by
  rw [extractLoop.eq_def]
  simp only []
  rw [if_neg (by simp +decide [standaloneOps, str, ha])]
  rw [if_neg (by simp +decide [str, List.isPrefixOf, ha, Ne.symm ha])]
  rw [if_pos (by simp +decide [str, List.isPrefixOf])]
  simp +decide [str, List.isPrefixOf]

set_option maxHeartbeats 1000000 in
/-- Helper for C2: a fused `1>` token whose remainder does not begin with `>`
sets the stdout entry to the remainder in truncate mode. -/
theorem extractLoop_fused_trunc_one (s : ExtractSt) (rest : List Str)
    (a : Char) (t : Str) (ha : a ≠ '>') :
    extractLoop ((str "1>" ++ (a :: t)) :: rest) s =
      extractLoop rest {s with redirectTarget := some (a :: t), appendStdout := false} := by
  rw [extractLoop.eq_def]
  simp only []
  rw [if_neg (by simp +decide [standaloneOps, str, ha])]
  rw [if_neg (by simp +decide [str, List.isPrefixOf, ha, Ne.symm ha])]
  rw [if_pos (by simp +decide [str, List.isPrefixOf])]
  simp +decide [str, List.isPrefixOf]

set_option maxHeartbeats 1000000 in
/-- Helper for C2: a fused `2>` token whose remainder does not begin with `>`
sets the stderr entry to the remainder in truncate mode. -/
theorem extractLoop_fused_trunc_two (s : ExtractSt) (rest : List Str)
    (a : Char) (t : Str) (ha : a ≠ '>') :
    extractLoop ((str "2>" ++ (a :: t)) :: rest) s =
      extractLoop rest {s with redirectErrorTarget := some (a :: t), appendStderr := false} := by
  rw [extractLoop.eq_def]
  simp only []
  rw [if_neg (by simp +decide [standaloneOps, str, ha])]
  rw [if_neg (by simp +decide [str, List.isPrefixOf, ha, Ne.symm ha])]
  rw [if_pos (by simp +decide [str, List.isPrefixOf])]
  simp +decide [str, List.isPrefixOf]

/-- C2: stream and mode selection of the redirection scan.  First conjunct:
a standalone operator with a following token assigns the stderr entry exactly
when the operator starts with the numeral `2`, the stdout entry otherwise,
with mode given by `>>` containment, leaving the other stream untouched.
Second conjunct: among the six operators, `>>` containment holds exactly for
the append forms and the `2` prefix exactly for the stderr forms.  Third
conjunct: the same stream redirected twice keeps the last target and mode.
Fourth conjunct: the six fused operator+path forms select the same streams
and modes.  Fifth conjunct: the three concrete examples from the spec. -/
theorem redirection_stream_and_mode_selection :
    (∀ (s : ExtractSt) (op target : Str) (rest : List Str), op ∈ standaloneOps →
      extractLoop (op :: target :: rest) s =
        extractLoop rest
          (if (str "2").isPrefixOf op then
            {s with redirectErrorTarget := some target, appendStderr := hasDoubleGt op}
           else
            {s with redirectTarget := some target, appendStdout := hasDoubleGt op}))
    ∧ (∀ op ∈ standaloneOps,
        (hasDoubleGt op = true ↔ op ∈ [str ">>", str "1>>", str "2>>"])
        ∧ ((str "2").isPrefixOf op = true ↔ op ∈ [str "2>", str "2>>"]))
    ∧ (∀ t1 t2 : Str,
        extract [str ">", t1, str "1>>", t2]
          = {initExtract with redirectTarget := some t2, appendStdout := true}
        ∧ extract [str "2>", t1, str "2>>", t2]
          = {initExtract with redirectErrorTarget := some t2, appendStderr := true})
    ∧ (∀ (s : ExtractSt) (rest : List Str) (a : Char) (t : Str),
        extractLoop ((str ">>" ++ (a :: t)) :: rest) s
          = extractLoop rest {s with redirectTarget := some (a :: t), appendStdout := true}
        ∧ extractLoop ((str "1>>" ++ (a :: t)) :: rest) s
          = extractLoop rest {s with redirectTarget := some (a :: t), appendStdout := true}
        ∧ extractLoop ((str "2>>" ++ (a :: t)) :: rest) s
          = extractLoop rest {s with redirectErrorTarget := some (a :: t), appendStderr := true}
        ∧ (a ≠ '>' →
            extractLoop ((str ">" ++ (a :: t)) :: rest) s
              = extractLoop rest {s with redirectTarget := some (a :: t), appendStdout := false}
            ∧ extractLoop ((str "1>" ++ (a :: t)) :: rest) s
              = extractLoop rest {s with redirectTarget := some (a :: t), appendStdout := false}
            ∧ extractLoop ((str "2>" ++ (a :: t)) :: rest) s
              = extractLoop rest
                  {s with redirectErrorTarget := some (a :: t), appendStderr := false}))
    ∧ (extract [str "1>", str "/tmp/o"]
        = {initExtract with redirectTarget := some (str "/tmp/o")}
      ∧ extract [str ">>/tmp/o"]
        = {initExtract with redirectTarget := some (str "/tmp/o"), appendStdout := true}
      ∧ extract [str "2>>", str "/tmp/e"]
        = {initExtract with redirectErrorTarget := some (str "/tmp/e"), appendStderr := true}) := by
  refine ⟨extractLoop_standalone_consume, ?_, ?_, ?_, ?_⟩
  · intro op hop
    simp only [standaloneOps, List.mem_cons, List.not_mem_nil, or_false] at hop
    rcases hop with rfl | rfl | rfl | rfl | rfl | rfl <;> constructor <;> decide
  · intro t1 t2
    constructor
    · rw [extract, extractLoop_standalone_consume _ _ _ _ (by decide), if_neg (by decide),
        extractLoop_standalone_consume _ _ _ _ (by decide), if_neg (by decide)]
      simp +decide [extractLoop, hasDoubleGt]
    · rw [extract, extractLoop_standalone_consume _ _ _ _ (by decide), if_pos (by decide),
        extractLoop_standalone_consume _ _ _ _ (by decide), if_pos (by decide)]
      simp +decide [extractLoop, hasDoubleGt]
  · intro s rest a t
    exact ⟨extractLoop_fused_append_bare s rest a t,
      extractLoop_fused_append_one s rest a t,
      extractLoop_fused_append_two s rest a t,
      fun ha => ⟨extractLoop_fused_trunc_bare s rest a t ha,
        extractLoop_fused_trunc_one s rest a t ha,
        extractLoop_fused_trunc_two s rest a t ha⟩⟩
  · refine ⟨by decide, by decide, by decide⟩

/-- Witness for C2: the standalone law applied at `2>` followed by `2>>`
reproduces the expected last-occurrence-wins stderr entry. -/
theorem redirection_stream_and_mode_selection_witness :
    extractLoop [str "2>", str "/tmp/e", str "2>>", str "/tmp/e2"] initExtract
      = {initExtract with redirectErrorTarget := some (str "/tmp/e2"), appendStderr := true} := by
  have h := redirection_stream_and_mode_selection.1 initExtract (str "2>") (str "/tmp/e")
      [str "2>>", str "/tmp/e2"] (by decide)
  rw [h]
  decide

/-- C4: a standalone redirection operator reaching the scan with no following
token is kept in the filtered argument list as a plain literal argument and no
redirection entry is created for it (first conjunct: the state is unchanged
except for the appended argument); when a following token exists, both tokens
are removed from the argument stream (filtered arguments unchanged) and the
following token becomes the target path of one of the two streams (second
conjunct). -/
theorem dangling_operator_is_literal_argument :
    (∀ (s : ExtractSt) (op : Str), op ∈ standaloneOps →
      extractLoop [op] s = {s with filteredArgs := s.filteredArgs ++ [op]})
    ∧ (∀ (s : ExtractSt) (op target : Str) (rest : List Str), op ∈ standaloneOps →
      ∃ s2, extractLoop (op :: target :: rest) s = extractLoop rest s2
        ∧ s2.filteredArgs = s.filteredArgs
        ∧ ((s2.redirectTarget = some target ∧ s2.redirectErrorTarget = s.redirectErrorTarget)
          ∨ (s2.redirectErrorTarget = some target ∧ s2.redirectTarget = s.redirectTarget))) := by
  constructor
  · exact extractLoop_standalone_dangling
  · intro s op target rest hop
    rw [extractLoop_standalone_consume s op target rest hop]
    refine ⟨_, rfl, ?_, ?_⟩
    · split_ifs <;> simp
    · split_ifs with h2
      · exact Or.inr ⟨by simp, by simp⟩
      · exact Or.inl ⟨by simp, by simp⟩

/-- Witness for C4: the dangling `2>>` at the end of the token list is kept
as a literal argument. -/
theorem dangling_operator_is_literal_argument_witness :
    extractLoop [str "2>>"] initExtract
      = {initExtract with filteredArgs := [str "2>>"]} := by
  have h := dangling_operator_is_literal_argument.1 initExtract (str "2>>") (by decide)
  simpa using h

/-! ## Dispatcher claims -/

/-- Helper: `writeLine` with a truthy redirect target never writes to the
terminal. -/
theorem writeLineEv_not_termOut (target : Str) (h : target ≠ []) (out : Str)
    (app : Bool) (x : Str) : writeLineEv out (some target) app ≠ .termOut x := by
  cases target with
  | nil => exact absurd rfl h
  | cons a t => cases app <;> simp [writeLineEv, strTruthy]

/-- Helper: every pre-execution event is a truncating file write. -/
theorem preEvents_mem (p : ParsedInput) (ev : Ev) (h : ev ∈ preEvents p) :
    ∃ tt, ev = .fileWrite tt [] := by
  unfold preEvents at h
  rcases List.mem_append.mp h with h1 | h1
  · split_ifs at h1
    · simp only [List.mem_singleton] at h1
      exact ⟨_, h1⟩
    · simp at h1
  · split_ifs at h1
    · simp only [List.mem_singleton] at h1
      exact ⟨_, h1⟩
    · simp at h1

/-- Helper: every message of `handleType` goes through `writeLine`, so with a
truthy stdout target none of them reaches the terminal. -/
theorem handleType_not_termOut (env : Env) (args : List Str) (target : Str)
    (h : target ≠ []) (app : Bool) :
    ∀ ev ∈ handleType env args (some target) app, ∀ x, ev ≠ .termOut x := by
  intro ev hev x
  rcases args with _ | ⟨c, rest⟩ <;> simp only [handleType] at hev
  · simp only [List.mem_singleton] at hev
    subst hev
    exact writeLineEv_not_termOut target h _ _ x
  · split_ifs at hev
    · simp only [List.mem_singleton] at hev
      subst hev
      exact writeLineEv_not_termOut target h _ _ x
    · simp only [List.mem_singleton] at hev
      subst hev
      exact writeLineEv_not_termOut target h _ _ x
    · split at hev <;>
        (simp only [List.mem_singleton] at hev
         subst hev
         exact writeLineEv_not_termOut target h _ _ x)

/-- C1 counterexample: dispatching the parsed line `cd /nope 1> /tmp/o` in an
environment where `/nope` does not exist emits the error line as a terminal
write, not into the stdout redirection target; the target file ends up empty,
not containing the message.  Builtin `cd`'s error (and `handleNotFound`'s
command-not-found line) use `console.log` and never receive the plan, so the
claim that all builtin error output honors the redirection plan is false. -/
theorem cd_error_message_goes_to_terminal :
    dispatch envNone (parseInput (str "cd /nope 1> /tmp/o"))
      = [.fileWrite (str "/tmp/o") [],
         .termOut (str "cd: /nope: No such file or directory" ++ ['\n'])]
    ∧ applyEvs (dispatch envNone (parseInput (str "cd /nope 1> /tmp/o"))) noFiles
        (str "/tmp/o") = some [] := by
  constructor <;> decide

/-- C1 amended: with a non-empty stdout redirection target, the builtins
`echo`, `pwd` and `type` send all of their textual output — including `type`'s
error messages — to the redirection target and never to the terminal (first
three conjuncts); but `cd`'s resolution-failure message and the
`<command>: command not found` line are written to the terminal by
`console.log` regardless of the redirection plan (last two conjuncts). -/
theorem builtin_output_redirection_split :
    (∀ (env : Env) (t : Str), t ≠ [] →
      ∀ (args : List Str) (ret : Option Str) (aO aE : Bool),
      ∀ ev ∈ dispatch env ⟨str "echo", args, some t, ret, aO, aE⟩, ∀ x, ev ≠ .termOut x)
    ∧ (∀ (env : Env) (t : Str), t ≠ [] →
      ∀ (args : List Str) (ret : Option Str) (aO aE : Bool),
      ∀ ev ∈ dispatch env ⟨str "pwd", args, some t, ret, aO, aE⟩, ∀ x, ev ≠ .termOut x)
    ∧ (∀ (env : Env) (t : Str), t ≠ [] →
      ∀ (args : List Str) (ret : Option Str) (aO aE : Bool),
      ∀ ev ∈ dispatch env ⟨str "type", args, some t, ret, aO, aE⟩, ∀ x, ev ≠ .termOut x)
    ∧ (∀ (env : Env) (t loc : Str) (args : List Str) (ret : Option Str) (aO aE : Bool),
        loc ≠ [] → (str "~").isPrefixOf loc = false →
        env.fileExists (env.resolve env.cwd loc) = false →
        Ev.termOut (str "cd: " ++ loc ++ str ": No such file or directory" ++ ['\n'])
          ∈ dispatch env ⟨str "cd", loc :: args, some t, ret, aO, aE⟩)
    ∧ (∀ (env : Env) (cmd : Str) (args : List Str) (t : Str) (ret : Option Str) (aO aE : Bool),
        cmd ∉ BUILTIN_COMMANDS → findExec env cmd env.directories = none →
        Ev.termOut (cmd ++ str ": command not found" ++ ['\n'])
          ∈ dispatch env ⟨cmd, args, some t, ret, aO, aE⟩) := by
  refine ⟨?_, ?_, ?_, ?_, ?_⟩
  · intro env t ht args ret aO aE ev hev x
    rcases List.mem_append.mp hev with h1 | h1
    · obtain ⟨tt, rfl⟩ := preEvents_mem _ ev h1
      simp
    · simp only [bodyEvents] at h1
      rw [if_neg (by decide), if_neg (by decide), if_pos (by decide)] at h1
      simp only [handleEcho, List.mem_singleton] at h1
      subst h1
      exact writeLineEv_not_termOut t ht _ _ x
  · intro env t ht args ret aO aE ev hev x
    rcases List.mem_append.mp hev with h1 | h1
    · obtain ⟨tt, rfl⟩ := preEvents_mem _ ev h1
      simp
    · simp only [bodyEvents] at h1
      rw [if_neg (by decide), if_neg (by decide), if_neg (by decide),
        if_pos (by decide)] at h1
      simp only [List.mem_singleton] at h1
      subst h1
      exact writeLineEv_not_termOut t ht _ _ x
  · intro env t ht args ret aO aE ev hev x
    rcases List.mem_append.mp hev with h1 | h1
    · obtain ⟨tt, rfl⟩ := preEvents_mem _ ev h1
      simp
    · simp only [bodyEvents] at h1
      rw [if_neg (by decide), if_neg (by decide), if_neg (by decide), if_neg (by decide),
        if_pos (by decide)] at h1
      exact handleType_not_termOut env args t ht aO ev h1 x
  · intro env t loc args ret aO aE hloc htilde hex
    apply List.mem_append_right
    simp only [bodyEvents]
    rw [if_pos (by decide)]
    rcases loc with _ | ⟨a, l⟩
    · exact absurd rfl hloc
    · simp [handleCd, htilde, hex]
  · intro env cmd args t ret aO aE hcmd hfe
    apply List.mem_append_right
    simp only [bodyEvents]
    simp only [BUILTIN_COMMANDS, List.mem_cons, List.not_mem_nil, or_false, not_or] at hcmd
    obtain ⟨h1, h2, h3, h4, h5⟩ := hcmd
    rw [if_neg h1, if_neg h3, if_neg h2, if_neg h4, if_neg h5]
    simp only [handleNotFound]
    rw [hfe]
    simp

/-- Witness for C1 (amended) at a concrete environment: `cd`'s error line is
emitted with no executable anywhere and a stdout redirection in place. -/
theorem builtin_output_redirection_split_witness :
    Ev.termOut (str "cd: /nope: No such file or directory" ++ ['\n'])
      ∈ dispatch envNone ⟨str "cd", [str "/nope"], some (str "/tmp/o"), none, false, false⟩ := by
  have h := builtin_output_redirection_split.2.2.2.1 envNone (str "/tmp/o") (str "/nope")
      [] none false false (by decide) (by decide) (by decide)
  exact h

/-- C5: truncation happens before dispatch.  Conjuncts: (1) a dispatch is
exactly the pre-execution events followed by the command-switch events;
(2) the pre-execution events never read the command name; (3) with a stdout
target in truncate mode the very first event of the dispatch empties that
file; (4) with a stderr target in truncate mode its emptying write is among
the pre-execution events; (5) when both streams are in append mode there is
no pre-execution event at all; (6) dispatching `cd 1> /tmp/x` (a builtin
producing no output) leaves `/tmp/x` empty in every environment; (7)
dispatching `foo 1> /tmp/x` where `foo` cannot be resolved still leaves
`/tmp/x` empty; (8) dispatching `echo hi 1>> /tmp/x` appends to the existing
content rather than truncating it. -/
theorem truncate_before_dispatch :
    (∀ (env : Env) (p : ParsedInput), dispatch env p = preEvents p ++ bodyEvents env p)
    ∧ (∀ (p : ParsedInput) (c : Str), preEvents {p with command := c} = preEvents p)
    ∧ (∀ (env : Env) (p : ParsedInput) (t : Str), p.redirectTarget = some t → t ≠ [] →
        p.appendStdout = false → ∃ tl, dispatch env p = .fileWrite t [] :: tl)
    ∧ (∀ (p : ParsedInput) (e : Str), p.redirectErrorTarget = some e → e ≠ [] →
        p.appendStderr = false → Ev.fileWrite e [] ∈ preEvents p)
    ∧ (∀ p : ParsedInput, p.appendStdout = true → p.appendStderr = true → preEvents p = [])
    ∧ (∀ (env : Env) (files : Str → Option Str),
        applyEvs (dispatch env (parseInput (str "cd 1> /tmp/x"))) files (str "/tmp/x")
          = some [])
    ∧ (∀ (env : Env) (files : Str → Option Str), env.directories = [] →
        applyEvs (dispatch env (parseInput (str "foo 1> /tmp/x"))) files (str "/tmp/x")
          = some [])
    ∧ (∀ (env : Env) (files : Str → Option Str) (c : Str), files (str "/tmp/x") = some c →
        applyEvs (dispatch env (parseInput (str "echo hi 1>> /tmp/x"))) files (str "/tmp/x")
          = some (c ++ str "hi" ++ ['\n'])) := by
  refine ⟨fun env p => rfl, fun p c => rfl, ?_, ?_, ?_, ?_, ?_, ?_⟩
  · intro env p t h1 h2 h3
    rcases t with _ | ⟨a, l⟩
    · exact absurd rfl h2
    · refine ⟨(if strTruthy p.redirectErrorTarget && !p.appendStderr then
          [Ev.fileWrite (getT p.redirectErrorTarget) []] else []) ++ bodyEvents env p, ?_⟩
      unfold dispatch preEvents
      rw [h1, h3]
      simp [strTruthy, getT]
  · intro p e h1 h2 h3
    rcases e with _ | ⟨a, l⟩
    · exact absurd rfl h2
    · unfold preEvents
      rw [h1, h3]
      simp [strTruthy, getT]
  · intro p h1 h2
    unfold preEvents
    rw [h1, h2]
    simp
  · intro env files
    have hp : parseInput (str "cd 1> /tmp/x")
        = ⟨str "cd", [], some (str "/tmp/x"), none, false, false⟩ := by decide
    rw [hp]
    simp +decide [dispatch, preEvents, bodyEvents, handleCd, strTruthy, getT,
      applyEvs, applyEv]
  · intro env files hdir
    have hp : parseInput (str "foo 1> /tmp/x")
        = ⟨str "foo", [], some (str "/tmp/x"), none, false, false⟩ := by decide
    rw [hp]
    simp +decide [dispatch, preEvents, bodyEvents, handleNotFound, hdir, findExec,
      strTruthy, getT, applyEvs, applyEv]
  · intro env files c hc
    have hp : parseInput (str "echo hi 1>> /tmp/x")
        = ⟨str "echo", [str "hi"], some (str "/tmp/x"), none, true, false⟩ := by decide
    rw [hp]
    simp +decide [dispatch, preEvents, bodyEvents, handleEcho, writeLineEv, strTruthy,
      getT, applyEvs, applyEv, hc]

/-- Witness for C5 at a concrete environment and file system: the append-mode
dispatch extends the existing content of `/tmp/x`. -/
theorem truncate_before_dispatch_witness :
    applyEvs (dispatch envNone (parseInput (str "echo hi 1>> /tmp/x")))
      (filesWith (str "/tmp/x") (str "old")) (str "/tmp/x")
      = some (str "old" ++ str "hi" ++ ['\n']) := by
  have h := truncate_before_dispatch.2.2.2.2.2.2.2 envNone
      (filesWith (str "/tmp/x") (str "old")) (str "old") (by decide)
  exact h

/-- C10: dispatching `cd` with an empty argument list is a silent no-op: the
dispatch trace contains no terminal output and no working-directory change
(only, possibly, the pre-execution truncation file writes). -/
theorem cd_without_args_is_silent (env : Env) (p : ParsedInput)
    (hc : p.command = str "cd") (ha : p.args = []) :
    ∀ ev ∈ dispatch env p, (∀ x, ev ≠ .termOut x) ∧ (∀ d, ev ≠ .chdir d) := by
  intro ev hev
  unfold dispatch at hev
  rcases List.mem_append.mp hev with h1 | h1
  · obtain ⟨tt, rfl⟩ := preEvents_mem p ev h1
    exact ⟨fun x => by simp, fun d => by simp⟩
  · rw [bodyEvents, if_pos hc, ha] at h1
    simp [handleCd] at h1

/-- Witness for C10: the pre-execution truncation write of a redirected
argument-less `cd` is neither a terminal write nor a directory change. -/
theorem cd_without_args_is_silent_witness :
    (Ev.fileWrite (str "/o") [] ≠ Ev.termOut ['x'])
    ∧ (Ev.fileWrite (str "/o") [] ≠ Ev.chdir ['x']) := by
  have h := cd_without_args_is_silent envNone
      ⟨str "cd", [], some (str "/o"), none, false, false⟩ rfl rfl
      (Ev.fileWrite (str "/o") []) (by decide)
  exact ⟨h.1 ['x'], h.2 ['x']⟩

/-! ## Completion engine claim -/

/-- C7: the completion policy.  With a non-empty partial command word:
(1) two or more candidates whose longest common prefix is strictly longer
than the partial word complete the line to that prefix with no trailing space
and no side events; (2) when the partial word already equals the prefix, a
trigger with counter below two emits an alert only; (3) a trigger with
counter at least two prints the sorted candidates joined on a fresh line and
redraws the prompt, changing nothing in the line; (4) a single candidate
completes to that candidate plus a trailing space; (5) zero candidates emit
an alert with no line change; (6) the tab counter increments on a tab key and
resets to zero on any other key. -/
theorem completion_policy :
    (∀ (env : CompEnv) (n : Nat) (line : Str),
      commandPartOf line ≠ [] →
      2 ≤ (sortedCandidatesOf env (commandPartOf line)).length →
      (commandPartOf line).length
        < (longestCommonPrefix (sortedCandidatesOf env (commandPartOf line))).length →
      completerFn env n line
        = (([longestCommonPrefix (sortedCandidatesOf env (commandPartOf line))],
            commandPartOf line), []))
    ∧ (∀ (env : CompEnv) (n : Nat) (line : Str),
      commandPartOf line ≠ [] →
      2 ≤ (sortedCandidatesOf env (commandPartOf line)).length →
      longestCommonPrefix (sortedCandidatesOf env (commandPartOf line))
        = commandPartOf line →
      n < 2 →
      completerFn env n line = (([], commandPartOf line), [.write [bellChar]]))
    ∧ (∀ (env : CompEnv) (n : Nat) (line : Str),
      commandPartOf line ≠ [] →
      2 ≤ (sortedCandidatesOf env (commandPartOf line)).length →
      longestCommonPrefix (sortedCandidatesOf env (commandPartOf line))
        = commandPartOf line →
      2 ≤ n →
      completerFn env n line
        = (([], commandPartOf line),
           [.write (['\n']
              ++ List.intercalate [' ', ' '] (sortedCandidatesOf env (commandPartOf line))
              ++ ['\n']),
            .promptRedraw]))
    ∧ (∀ (env : CompEnv) (n : Nat) (line : Str) (c : Str),
      commandPartOf line ≠ [] →
      sortedCandidatesOf env (commandPartOf line) = [c] →
      completerFn env n line = (([c ++ [' ']], commandPartOf line), []))
    ∧ (∀ (env : CompEnv) (n : Nat) (line : Str),
      commandPartOf line ≠ [] →
      sortedCandidatesOf env (commandPartOf line) = [] →
      completerFn env n line = (([], commandPartOf line), [.write [bellChar]]))
    ∧ (∀ n : Nat, tabCounterStep true n = n + 1 ∧ tabCounterStep false n = 0) := by
  have hie : ∀ line : Str, commandPartOf line ≠ [] →
      (commandPartOf line).isEmpty = false := by
    intro line h1
    cases hcp : commandPartOf line
    · exact absurd hcp h1
    · rfl
  refine ⟨?_, ?_, ?_, ?_, ?_, fun n => ⟨rfl, rfl⟩⟩
  · intro env n line h1 h2 h3
    rcases hsc : sortedCandidatesOf env (commandPartOf line) with _ | ⟨c1, _ | ⟨c2, rest⟩⟩
    · rw [hsc] at h2; simp at h2
    · rw [hsc] at h2; simp at h2
    · rw [hsc] at h3
      simp only [completerFn, hie line h1, Bool.false_eq_true, if_false, hsc]
      rw [if_pos h3]
  · intro env n line h1 h2 h3 h4
    rcases hsc : sortedCandidatesOf env (commandPartOf line) with _ | ⟨c1, _ | ⟨c2, rest⟩⟩
    · rw [hsc] at h2; simp at h2
    · rw [hsc] at h2; simp at h2
    · rw [hsc] at h3
      simp only [completerFn, hie line h1, Bool.false_eq_true, if_false, hsc]
      rw [if_neg (by rw [h3]; exact lt_irrefl _), if_neg (Nat.not_le.mpr h4)]
  · intro env n line h1 h2 h3 h4
    rcases hsc : sortedCandidatesOf env (commandPartOf line) with _ | ⟨c1, _ | ⟨c2, rest⟩⟩
    · rw [hsc] at h2; simp at h2
    · rw [hsc] at h2; simp at h2
    · rw [hsc] at h3
      simp only [completerFn, hie line h1, Bool.false_eq_true, if_false, hsc]
      rw [if_neg (by rw [h3]; exact lt_irrefl _), if_pos h4]
  · intro env n line c h1 hsc
    simp only [completerFn, hie line h1, Bool.false_eq_true, if_false, hsc]
  · intro env n line h1 hsc
    simp only [completerFn, hie line h1, Bool.false_eq_true, if_false, hsc]

/-- Witness for C7: with the builtin set alone and partial word `e`, the
candidates are `echo` and `exit`, their longest common prefix is `e` itself,
and the second consecutive tab prints the sorted listing and redraws. -/
theorem completion_policy_witness :
    completerFn compEnvEmpty 2 ['e']
      = (([], ['e']),
         [.write (['\n'] ++ str "echo" ++ [' ', ' '] ++ str "exit" ++ ['\n']),
          .promptRedraw]) := by
  have h := completion_policy.2.2.1 compEnvEmpty 2 ['e']
      (by decide) (by decide) (by decide) (by decide)
  exact h.trans (by decide)

end BuildShell
